import Mathlib

/-!
Verification development for the quick_timer deferred-action scheduler
(`custom_components/quick_timer/__init__.py`).

The coordinator (`QuickTimerCoordinator`) is embedded shallowly: its mutable
state (`_scheduled_tasks`, `_state_listeners`, the durable task store, the
preferences history) becomes an explicit `Coord` record threaded through pure
functions, and external collaborators (the Home Assistant service bus,
`dt_util.parse_datetime`, timer cancel handles) become an `Env` oracle.
Observable effects — lifecycle events fired on the bus, notification delivery
attempts, host service invocations, timer-handle cancellations — are
accumulated in append-only logs inside `Coord` so that theorems can speak
about exactly which effects an operation produced.
-/

namespace QuickTimer

/-- Enum tags from `const.py` (file not in scope; the concrete string values
are opaque — only their distinctness matters). -/
def TIME_MODE_RELATIVE : String := "relative"

/-- Enum tag for absolute time mode, from `const.py`. -/
def TIME_MODE_ABSOLUTE : String := "absolute"

/-- Unit tag from `const.py`. -/
def UNIT_SECONDS : String := "seconds"

/-- Unit tag from `const.py`. -/
def UNIT_MINUTES : String := "minutes"

/-- Unit tag from `const.py`. -/
def UNIT_HOURS : String := "hours"

/-- `convert_to_seconds` — convert delay to seconds based on unit
(`__init__.py` lines 101-108).  Any unit other than seconds/hours falls
through to the minutes branch, as in the source's `else`. -/
def convert_to_seconds (delay : Int) (unit : String) : Int :=
  if unit = UNIT_SECONDS then delay
  else if unit = UNIT_HOURS then delay * 3600
  else delay * 60

/-- A Python `datetime` value: day index plus second-of-day plus microsecond,
mirroring `dt_util.now()` results.  `sod` is the second within the day
(`hour*3600 + minute*60 + second`) and `usec` the microsecond. -/
structure PyDT where
  day : Int
  sod : Nat
  usec : Nat
deriving DecidableEq, Repr

/-- Total microseconds since the epoch; datetime comparison and subtraction
go through this. -/
def PyDT.toAbsUsec (t : PyDT) : Int :=
  (t.day * 86400 + (t.sod : Int)) * 1000000 + (t.usec : Int)

/-- Python `<=` on datetimes. -/
def PyDT.le (a b : PyDT) : Bool := a.toAbsUsec ≤ b.toAbsUsec

/-- `now.replace(hour=h, minute=m, second=s, microsecond=0)`: keeps the day,
replaces the time of day, zeroes microseconds.  Returns `none` when Python's
`datetime.replace` would raise `ValueError` (field out of range). -/
def pyReplace (now : PyDT) (h m s : Int) : Option PyDT :=
  if 0 ≤ h ∧ h ≤ 23 ∧ 0 ≤ m ∧ m ≤ 59 ∧ 0 ≤ s ∧ s ≤ 59 then
    some ⟨now.day, (h * 3600 + m * 60 + s).toNat, 0⟩
  else none

/-- `t + timedelta(days=1)`. -/
def PyDT.addDays (t : PyDT) (d : Int) : PyDT := ⟨t.day + d, t.sod, t.usec⟩

/-- Rebuild a normalized `PyDT` from absolute microseconds. -/
def PyDT.ofAbsUsec (u : Int) : PyDT :=
  ⟨u.ediv 86400000000, ((u.emod 86400000000).ediv 1000000).toNat,
    (u.emod 1000000).toNat⟩

/-- `t + timedelta(seconds=d)`. -/
def PyDT.addSeconds (t : PyDT) (d : Int) : PyDT :=
  PyDT.ofAbsUsec (t.toAbsUsec + d * 1000000)

/-- `int((b - a).total_seconds())` for `a <= b`: the whole-second part of the
difference (truncation toward zero, which is floor for a nonnegative
difference). -/
def PyDT.diffSeconds (b a : PyDT) : Int :=
  (b.toAbsUsec - a.toAbsUsec).ediv 1000000

/-- A stand-in for `datetime.isoformat()`: some injective rendering of the
timestamp (the store holds time strings; only `parse_datetime` ever reads
them back). -/
def PyDT.isoformat (t : PyDT) : String :=
  toString t.day ++ "T" ++ toString t.sod ++ "." ++ toString t.usec

/-- Python `int(str)`: optional sign followed by digits.  (Python also strips
whitespace and allows digit-group underscores; the claims never exercise
those inputs.)  `none` models a raised `ValueError`. -/
def pyInt (s : String) : Option Int :=
  let core := fun (digits : List Char) =>
    if digits ≠ [] ∧ digits.all Char.isDigit then
      some (digits.foldl (fun (acc : Nat) c => acc * 10 + (c.toNat - 48)) 0)
    else none
  match s.toList with
  | '-' :: rest => (core rest).map (fun n => -(n : Int))
  | '+' :: rest => (core rest).map (fun n => (n : Int))
  | l => (core l).map (fun n => (n : Int))

/-- An action descriptor as the coordinator reads it:
`{"service": ..., "target": {"entity_id": ...}, "data": ...}`.  Only the
fields the coordinator inspects are modelled; `data` is opaque. -/
structure ActionDef where
  service : Option String
  target_entity : Option String
deriving DecidableEq, Repr

/-- Does the service string contain a dot (`"." in service`)? -/
def hasDot (s : String) : Bool := s.toList.contains '.'

/-- `service.split(".", 1)` first component (the domain). -/
def domainOf (s : String) : String :=
  String.mk (s.toList.takeWhile (fun c => c ≠ '.'))

/-- `service.split(".", 1)` second component (the service name). -/
def serviceNameOf (s : String) : String :=
  String.mk ((s.toList.dropWhile (fun c => c ≠ '.')).drop 1)

/-- A task record as persisted by `store.async_add_task`.  Time fields are
raw strings (records loaded from disk may carry anything). -/
structure TaskRecord where
  scheduled_time : Option String
  end_time : Option String
  delay_seconds : Int
  start_actions : List ActionDef
  finish_actions : List ActionDef
  notify : Bool
  notify_ha : Bool
  notify_mobile : Bool
  notify_devices : List String
  at_time : Option String
  time_mode : String
  task_label : Option String
deriving DecidableEq, Repr

/-- What the `execute_finish_actions` closure created by
`_create_finish_actions_callback` captures, together with the fire time the
timer was armed for. -/
structure TimerData where
  fireAt : PyDT
  finish_actions : List ActionDef
  notify : Bool
  notify_ha : Bool
  notify_mobile : Bool
  notify_devices : List String
  task_label : Option String
deriving DecidableEq, Repr

/-- A lifecycle event fired on the Home Assistant bus. -/
inductive Event
  | taskStarted (task_id : String) (start_actions finish_actions : List ActionDef)
      (scheduled_time end_time : String) (delay_seconds : Int)
  | taskCompleted (task_id : String) (finish_actions : List ActionDef)
      (success_count error_count : Nat)
  | taskCancelled (task_id : String) (reason : String)
deriving DecidableEq, Repr

/-- A notification delivery attempt (`_send_notification` invocation). -/
structure Notif where
  title : String
  message : String
  notify_ha : Bool
  notify_mobile : Bool
  notify_devices : List String
deriving DecidableEq, Repr

/-- Oracle for the external world: whether a host service call raises,
whether invoking a task's timer cancel handle raises, and what
`dt_util.parse_datetime` returns on a stored string. -/
structure Env where
  svcRaises : String → String → Bool
  cancelRaises : String → Bool
  parseDT : String → Option PyDT

/-- The coordinator state plus append-only logs of observable effects.
`store` is the Durable Task Store table, `scheduledTasks` the in-memory
`_scheduled_tasks` handle table (keyed by task id, holding what the armed
callback captured), `stateListeners` the `_state_listeners` keys,
`prefsHistory` the per-entity history appended by schedule step 7,
`events`/`notifs`/`calls`/`cancelCalls` the effect logs (bus events,
notification attempts, host service invocations, timer-handle calls). -/
structure Coord where
  store : List (String × TaskRecord)
  scheduledTasks : List (String × TimerData)
  stateListeners : List String
  prefsHistory : List (String × List ActionDef)
  events : List Event
  notifs : List Notif
  calls : List (String × String)
  cancelCalls : List String
deriving DecidableEq, Repr

/-- Python-dict assignment `d[k] = v` on a string-keyed association list:
at most one entry per key afterwards. -/
def putAssoc {α : Type} (l : List (String × α)) (k : String) (v : α) :
    List (String × α) :=
  (l.filter (fun p => p.1 ≠ k)) ++ [(k, v)]

/-- Python-dict deletion `del d[k]` (no-op when the key is absent). -/
def removeAssoc {α : Type} (l : List (String × α)) (k : String) :
    List (String × α) :=
  l.filter (fun p => p.1 ≠ k)

/-- Python-dict lookup `d.get(k)`. -/
def getAssoc {α : Type} (l : List (String × α)) (k : String) : Option α :=
  (l.find? (fun p => p.1 = k)).map Prod.snd

/-- Python-dict membership `k in d`. -/
def hasAssoc {α : Type} (l : List (String × α)) (k : String) : Bool :=
  l.any (fun p => p.1 = k)

/-- Modelled from the spec: `store.py` is not in scope; the Durable Task
Store contract (§6) is `load/save/remove/exists` on a `task_id → Task`
mapping.  `async_add_task` writes the record under its key. -/
def storePut (tbl : List (String × TaskRecord)) (k : String) (v : TaskRecord) :
    List (String × TaskRecord) :=
  putAssoc tbl k v

/-- Modelled from the spec: `store.async_remove_task` deletes the record. -/
def storeRemove (tbl : List (String × TaskRecord)) (k : String) :
    List (String × TaskRecord) :=
  removeAssoc tbl k

/-- Modelled from the spec: `store.has_task`. -/
def storeHas (tbl : List (String × TaskRecord)) (k : String) : Bool :=
  hasAssoc tbl k

/-- Modelled from the spec: `store.get_task`. -/
def storeGet (tbl : List (String × TaskRecord)) (k : String) :
    Option TaskRecord :=
  getAssoc tbl k

/-- Is a timer handle registered for this id (`task_id in _scheduled_tasks`)? -/
def hasTimer (st : Coord) (k : String) : Bool :=
  hasAssoc st.scheduledTasks k

/-- The armed callback data for a task id. -/
def timerGet (st : Coord) (k : String) : Option TimerData :=
  getAssoc st.scheduledTasks k

/-- `_execute_action_definition` (`__init__.py` lines 319-350).  Returns
`true` when the call raised.  A missing or falsy `service` field, or a
service string without a dot, is logged and skipped — the function returns
normally.  Otherwise the host call is attempted (recorded in `calls`) and
re-raises on failure. -/
def execute_action_definition (env : Env) (a : ActionDef) (st : Coord) :
    Bool × Coord :=
  match a.service with
  | none => (false, st)
  | some s =>
    if s = "" then (false, st)
    else if hasDot s then
      let d := domainOf s
      let n := serviceNameOf s
      (env.svcRaises d n, { st with calls := st.calls ++ [(d, n)] })
    else (false, st)

/-- The loop body of `execute_finish_actions`: run one action under
try/except, bumping the success or error counter. -/
def finishStep (env : Env) (acc : Nat × Nat × Coord) (a : ActionDef) :
    Nat × Nat × Coord :=
  let (sc, ec, st) := acc
  let (raised, st') := execute_action_definition env a st
  if raised then (sc, ec + 1, st') else (sc + 1, ec, st')

/-- The `execute_finish_actions` closure produced by
`_create_finish_actions_callback` (lines 430-491), applied at fire time:
run every finish action independently, fire `TaskCompleted` with the
counts, send the completion notification when any notify flag or device
list is set, then `_cleanup_task`. -/
def execute_finish_actions (env : Env) (task_id : String) (td : TimerData)
    (st : Coord) : Coord :=
  let (sc, ec, st1) := td.finish_actions.foldl (finishStep env) (0, 0, st)
  let st2 := { st1 with events := st1.events ++
    [Event.taskCompleted task_id td.finish_actions sc ec] }
  let display := td.task_label.getD task_id
  let st3 :=
    if td.notify_ha ∨ td.notify_mobile ∨ td.notify_devices ≠ [] then
      if ec > 0 then
        { st2 with notifs := st2.notifs ++ [⟨"Timer Completed: " ++ display,
            toString sc ++ " actions succeeded, " ++ toString ec ++ " failed",
            td.notify_ha, td.notify_mobile, td.notify_devices⟩] }
      else
        { st2 with notifs := st2.notifs ++ [⟨"Timer Completed: " ++ display,
            "All " ++ toString sc ++ " actions executed successfully",
            td.notify_ha, td.notify_mobile, td.notify_devices⟩] }
    else st2
  -- _cleanup_task task_id (lines 493-508)
  { st3 with
    scheduledTasks := removeAssoc st3.scheduledTasks task_id,
    stateListeners := st3.stateListeners.filter (fun k => k ≠ task_id),
    store := storeRemove st3.store task_id }

/-- `_cleanup_task` standalone (lines 493-508): drop the timer handle and any
state listener for the id and remove the record from the store. -/
def cleanup_task (task_id : String) (st : Coord) : Coord :=
  { st with
    scheduledTasks := removeAssoc st.scheduledTasks task_id,
    stateListeners := st.stateListeners.filter (fun k => k ≠ task_id),
    store := storeRemove st.store task_id }

/-- Outcome of `async_cancel_action`: Python return value or an uncaught
exception (the timer handle call on line 545 is not wrapped in try). -/
inductive CancelOutcome
  | ret (b : Bool)
  | raised
deriving DecidableEq, Repr

/-- The body of `async_cancel_action` after the cancel handle has been dealt
with (lines 547-572): read the stored record, `_cleanup_task`, fire
`TaskCancelled` (unconditionally — the event is not gated on `silent`), and
unless `silent`, attempt the cancellation notification when the stored
record has any notify flag or devices. -/
def cancelFinish (task_id : String) (silent : Bool) (reason : String)
    (st1 : Coord) : Coord :=
  let task := storeGet st1.store task_id
  let st2 := cleanup_task task_id st1
  let st3 := { st2 with events := st2.events ++
    [Event.taskCancelled task_id reason] }
  match task with
  | some t =>
    if ¬ silent ∧ (t.notify_ha ∨ t.notify_mobile ∨ t.notify ∨
        t.notify_devices ≠ []) then
      { st3 with notifs := st3.notifs ++
        [⟨"Timer Cancelled: " ++ t.task_label.getD task_id,
          "Scheduled task was cancelled (" ++ reason ++ ")",
          t.notify_ha, t.notify_mobile, t.notify_devices⟩] }
    else st3
  | none => st3

/-- `async_cancel_action` (lines 534-572).  Returns `False` untouched when
the id has neither a live handle nor a store entry.  Otherwise: invoke the
cancel handle if present (an exception there propagates — line 545 is not
wrapped in try), then run `cancelFinish`. -/
def async_cancel_action (env : Env) (task_id : String) (silent : Bool)
    (reason : String) (st : Coord) : CancelOutcome × Coord :=
  if ¬ hasTimer st task_id ∧ ¬ storeHas st.store task_id then
    (CancelOutcome.ret false, st)
  else
    let st1 :=
      if hasTimer st task_id then
        { st with cancelCalls := st.cancelCalls ++ [task_id] }
      else st
    let bad :=
      if hasTimer st task_id then env.cancelRaises task_id else false
    if bad then (CancelOutcome.raised, st1)
    else (CancelOutcome.ret true, cancelFinish task_id silent reason st1)

/-- One iteration of the `async_shutdown` cancel loop (lines 517-521):
`try: handle()` followed by `except Exception: pass`, so the raising and
non-raising branches of the handle call leave the same state and the loop
always continues to the next handle. -/
def shutdownStep (env : Env) (st : Coord) (k : String) : Coord :=
  if env.cancelRaises k then
    { st with cancelCalls := st.cancelCalls ++ [k] }
  else
    { st with cancelCalls := st.cancelCalls ++ [k] }

/-- `async_shutdown` (lines 510-532): call every live cancel handle inside
try/except-pass (so a raising handle never stops the loop), clear
`_scheduled_tasks` and `_state_listeners`, and do not touch the store. -/
def async_shutdown (env : Env) (st : Coord) : Coord :=
  let st1 := st.scheduledTasks.foldl (fun s p => shutdownStep env s p.1) st
  { st1 with scheduledTasks := [], stateListeners := [] }

/-- Outcome of parsing `at_time` inside `async_schedule_action`
(lines 196-213): `ok` with the computed hour/minute/second, `caught` when a
`ValueError` lands in the except clause (non-numeric part, or
`now.replace` range failure), `uncaught` when `parts[1]` raises `IndexError`
(a string with no colon whose first part parsed as an int), which the
except clause does not catch. -/
inductive AtTimeParse
  | ok (h m s : Int)
  | caught
  | uncaught
deriving DecidableEq, Repr

/-- Split a character list at every occurrence of `c`, Python
`str.split(sep)` style: the result always has one more piece than there
are separators, and an empty input yields one empty piece. -/
def splitCharsOn (c : Char) : List Char → List (List Char)
  | [] => [[]]
  | x :: xs =>
    let r := splitCharsOn c xs
    if x = c then [] :: r
    else
      match r with
      | [] => [[x]]
      | y :: ys => (x :: y) :: ys

/-- Python `at_time.split(':')`. -/
def pySplitColon (s : String) : List String :=
  (splitCharsOn ':' s.toList).map String.mk

/-- The `at_time.split(':')` / `int(...)` sequence of lines 197-199.  Python
evaluates `int(parts[0])` first (possible `ValueError`), then indexes
`parts[1]` (possible `IndexError`), then `int(parts[1])`, then optionally
`int(parts[2])`. -/
def parseAtTime (at_time : String) : AtTimeParse :=
  let parts := pySplitColon at_time
  match pyInt (parts.headD "") with
  | none => AtTimeParse.caught
  | some h =>
    match parts.drop 1 with
    | [] => AtTimeParse.uncaught
    | p1 :: rest =>
      match pyInt p1 with
      | none => AtTimeParse.caught
      | some m =>
        match rest with
        | [] => AtTimeParse.ok h m 0
        | p2 :: _ =>
          match pyInt p2 with
          | none => AtTimeParse.caught
          | some s => AtTimeParse.ok h m s

/-- The whole absolute-time computation of lines 196-210: parse, `replace`
(range check), roll to tomorrow when the result is `<= now`, and derive
`delay_seconds`.  Produces the scheduled fire time and delay, or the kind of
failure. -/
inductive AbsResult
  | ok (scheduled : PyDT) (delay_seconds : Int)
  | caught
  | uncaught
deriving DecidableEq, Repr

/-- Absolute-mode fire-time computation (`async_schedule_action`
lines 196-210). -/
def computeAbsolute (now : PyDT) (at_time : String) : AbsResult :=
  match parseAtTime at_time with
  | AtTimeParse.caught => AbsResult.caught
  | AtTimeParse.uncaught => AbsResult.uncaught
  | AtTimeParse.ok h m s =>
    match pyReplace now h m s with
    | none => AbsResult.caught
    | some t0 =>
      let scheduled := if t0.le now then t0.addDays 1 else t0
      AbsResult.ok scheduled (scheduled.diffSeconds now)

/-- Result of `async_schedule_action`: task created, request dropped via the
caught-and-logged path (`return` on line 213), or an exception escaping the
coroutine. -/
inductive ScheduleOutcome
  | created
  | rejected
  | raisedOut
deriving DecidableEq, Repr

/-- The arguments of `async_schedule_action` after the service layer. -/
structure ScheduleArgs where
  task_id : String
  delay : Int
  unit : String
  finish_actions : List ActionDef
  start_actions : List ActionDef
  notify : Bool
  notify_ha : Bool
  notify_mobile : Bool
  notify_devices : List String
  at_time : Option String
  time_mode : String
  task_label : Option String
deriving DecidableEq, Repr

/-- Python truthiness of the optional `at_time` string (`and at_time` on
line 194): present and non-empty. -/
def truthyStr : Option String → Bool
  | none => false
  | some s => s ≠ ""

/-- `async_schedule_action` (lines 172-317).  Step order follows the source:
silently cancel any existing task with the id; compute the fire time
(absolute parse failures log-and-return after the cancel has already
happened); run start actions under try/except; persist the record; arm the
timer; fire `TaskStarted`; append a history entry for the primary target
entity when `finish_actions` is non-empty. -/
def async_schedule_action (env : Env) (now : PyDT) (a : ScheduleArgs)
    (st : Coord) : ScheduleOutcome × Coord :=
  match async_cancel_action env a.task_id true "user_request" st with
  | (CancelOutcome.raised, st1) => (ScheduleOutcome.raisedOut, st1)
  | (CancelOutcome.ret _, st1) =>
    let timeRes :=
      if a.time_mode = TIME_MODE_ABSOLUTE ∧ truthyStr a.at_time then
        computeAbsolute now (a.at_time.getD "")
      else
        let d := convert_to_seconds a.delay a.unit
        AbsResult.ok (now.addSeconds d) d
    match timeRes with
    | AbsResult.caught => (ScheduleOutcome.rejected, st1)
    | AbsResult.uncaught => (ScheduleOutcome.raisedOut, st1)
    | AbsResult.ok scheduled delay_seconds =>
      let scheduled_time_str := now.isoformat
      let end_time_str := scheduled.isoformat
      -- start actions, each under try/except (lines 223-229)
      let st2 := a.start_actions.foldl
        (fun s act => (execute_action_definition env act s).2) st1
      let record : TaskRecord :=
        { scheduled_time := some scheduled_time_str,
          end_time := some end_time_str,
          delay_seconds := delay_seconds,
          start_actions := a.start_actions,
          finish_actions := a.finish_actions,
          notify := a.notify, notify_ha := a.notify_ha,
          notify_mobile := a.notify_mobile,
          notify_devices := a.notify_devices,
          at_time := a.at_time, time_mode := a.time_mode,
          task_label := a.task_label }
      let st3 := { st2 with store := storePut st2.store a.task_id record }
      let td : TimerData :=
        { fireAt := scheduled, finish_actions := a.finish_actions,
          notify := a.notify, notify_ha := a.notify_ha,
          notify_mobile := a.notify_mobile,
          notify_devices := a.notify_devices, task_label := a.task_label }
      let st4 :=
        { st3 with scheduledTasks := putAssoc st3.scheduledTasks a.task_id td }
      let st5 := { st4 with events := st4.events ++
        [Event.taskStarted a.task_id a.start_actions a.finish_actions
          scheduled_time_str end_time_str delay_seconds] }
      let st6 :=
        match a.finish_actions with
        | [] => st5
        | first :: _ =>
          { st5 with prefsHistory := st5.prefsHistory ++
            [(first.target_entity.getD a.task_id, a.finish_actions)] }
      (ScheduleOutcome.created, st6)

/-- `end_time_str = task.get("end_time") or task.get("scheduled_time")`
(line 761): Python `or` skips falsy values (absent or empty string). -/
def pyOrStr (a b : Option String) : Option String :=
  match a with
  | some s => if s ≠ "" then some s else (match b with
      | some t => if t ≠ "" then some t else none
      | none => none)
  | none => match b with
      | some t => if t ≠ "" then some t else none
      | none => none

/-- The fire time `async_restore_tasks` recovers from a stored record:
`parse_datetime(end_time or scheduled_time)`, `none` when both fields are
falsy or the string does not parse. -/
def recordFireTime (env : Env) (rec : TaskRecord) : Option PyDT :=
  match pyOrStr rec.end_time rec.scheduled_time with
  | none => none
  | some s => env.parseDT s

/-- The `TimerData` that restore's re-created callback captures (the
`task.get` reads of lines 782-811). -/
def timerDataOf (rec : TaskRecord) (fireAt : PyDT) : TimerData :=
  { fireAt := fireAt, finish_actions := rec.finish_actions,
    notify := rec.notify, notify_ha := rec.notify_ha,
    notify_mobile := rec.notify_mobile,
    notify_devices := rec.notify_devices, task_label := rec.task_label }

/-- One iteration of the `async_restore_tasks` loop (lines 760-812) on the
snapshot entry `(task_id, rec)`: drop (and remove from the store) records
with an unparsable fire time or empty `finish_actions`; execute overdue
records immediately through the same finish callback; re-arm the rest. -/
def restoreStep (env : Env) (now : PyDT) (st : Coord)
    (p : String × TaskRecord) : Coord :=
  let (task_id, rec) := p
  match recordFireTime env rec with
  | none => { st with store := storeRemove st.store task_id }
  | some scheduled =>
    if rec.finish_actions = [] then
      { st with store := storeRemove st.store task_id }
    else if scheduled.le now then
      execute_finish_actions env task_id (timerDataOf rec scheduled) st
    else
      { st with scheduledTasks :=
        putAssoc st.scheduledTasks task_id (timerDataOf rec scheduled) }

/-- `async_restore_tasks` (lines 755-814): iterate over a snapshot of the
store (`list(tasks.items())`) applying `restoreStep`. -/
def async_restore_tasks (env : Env) (now : PyDT) (st : Coord) : Coord :=
  st.store.foldl (restoreStep env now) st

/-! ### Derived characterizations of the embedded operations -/

/-- Whether `_execute_action_definition` raises on this action: only a
present, non-empty, dotted service string whose host call fails does. -/
def actionRaises (env : Env) (a : ActionDef) : Bool :=
  match a.service with
  | none => false
  | some s =>
    if s = "" then false
    else if hasDot s then env.svcRaises (domainOf s) (serviceNameOf s)
    else false

/-- The host service invocations one action produces (empty when the action
is skipped before reaching the service bus). -/
def callOf (a : ActionDef) : List (String × String) :=
  match a.service with
  | none => []
  | some s =>
    if s = "" then []
    else if hasDot s then [(domainOf s, serviceNameOf s)]
    else []

/-- All host service invocations a batch produces, in batch order. -/
def callsOf (l : List ActionDef) : List (String × String) :=
  (l.map callOf).flatten

/-- The `success_count` the finish loop computes on a batch. -/
def successCountOf (env : Env) (l : List ActionDef) : Nat :=
  (l.filter (fun a => !(actionRaises env a))).length

/-- The `error_count` the finish loop computes on a batch. -/
def errorCountOf (env : Env) (l : List ActionDef) : Nat :=
  (l.filter (fun a => actionRaises env a)).length

/-- Predicate for `TaskCancelled` events of a given task id. -/
def isCancelledFor (id : String) : Event → Bool
  | Event.taskCancelled t _ => t = id
  | _ => false

/-- Predicate for `TaskCompleted` events of a given task id. -/
def isCompletedFor (id : String) : Event → Bool
  | Event.taskCompleted t _ _ _ => t = id
  | _ => false

/-- How many `TaskCancelled` events for this id a log holds. -/
def cancelledCount (id : String) (evs : List Event) : Nat :=
  (evs.filter (isCancelledFor id)).length

/-- How many `TaskCompleted` events for this id a log holds. -/
def completedCount (id : String) (evs : List Event) : Nat :=
  (evs.filter (isCompletedFor id)).length

lemma execute_action_definition_eq (env : Env) (a : ActionDef) (st : Coord) :
    execute_action_definition env a st =
      (actionRaises env a, { st with calls := st.calls ++ callOf a }) := by
  cases a with
  | mk service te =>
    cases service with
    | none => simp [execute_action_definition, actionRaises, callOf]
    | some s =>
      by_cases hs : s = "" <;> by_cases hd : hasDot s <;>
        simp [execute_action_definition, actionRaises, callOf, hs, hd]

lemma finishFold_eq (env : Env) (l : List ActionDef) :
    ∀ sc ec st, l.foldl (finishStep env) (sc, ec, st) =
      (sc + successCountOf env l, ec + errorCountOf env l,
        { st with calls := st.calls ++ callsOf l }) := by
  induction l with
  | nil => intro sc ec st; simp [successCountOf, errorCountOf, callsOf]
  | cons a t ih =>
    intro sc ec st
    simp only [List.foldl_cons, finishStep, execute_action_definition_eq]
    cases h : actionRaises env a <;>
      · simp only [h, Bool.false_eq_true, if_false, if_true]
        rw [ih]
        simp [successCountOf, errorCountOf, callsOf, List.filter_cons, h]
        omega

lemma execute_finish_actions_spec (env : Env) (task_id : String)
    (td : TimerData) (st : Coord) :
    (execute_finish_actions env task_id td st).events =
      st.events ++ [Event.taskCompleted task_id td.finish_actions
        (successCountOf env td.finish_actions)
        (errorCountOf env td.finish_actions)] ∧
    (execute_finish_actions env task_id td st).calls =
      st.calls ++ callsOf td.finish_actions ∧
    (execute_finish_actions env task_id td st).store =
      storeRemove st.store task_id ∧
    (execute_finish_actions env task_id td st).scheduledTasks =
      removeAssoc st.scheduledTasks task_id := by
  unfold execute_finish_actions
  rw [finishFold_eq]
  by_cases hn : td.notify_ha ∨ td.notify_mobile ∨ td.notify_devices ≠ [] <;>
    by_cases he : errorCountOf env td.finish_actions > 0 <;>
      simp [hn, he, storeRemove, removeAssoc]

lemma hasAssoc_removeAssoc {α : Type} (l : List (String × α)) (k : String) :
    hasAssoc (removeAssoc l k) k = false := by
  induction l with
  | nil => rfl
  | cons p t ih =>
    by_cases h : p.1 = k <;>
      simp [hasAssoc, removeAssoc, List.filter_cons, h] at *

lemma mem_removeAssoc {α : Type} {p : String × α} {l : List (String × α)}
    {k : String} (h : p ∈ removeAssoc l k) : p ∈ l := by
  simpa using (List.mem_filter.mp h).1

lemma getAssoc_putAssoc_self {α : Type} (l : List (String × α)) (k : String)
    (v : α) : getAssoc (putAssoc l k v) k = some v := by
  induction l with
  | nil => simp [getAssoc, putAssoc, List.find?]
  | cons p t ih =>
    by_cases h : p.1 = k <;>
      simp [getAssoc, putAssoc, List.filter_cons, List.find?, h] at *

lemma shutdownFold_eq (env : Env) (l : List (String × TimerData)) :
    ∀ st : Coord, l.foldl (fun s p => shutdownStep env s p.1) st =
      { st with cancelCalls := st.cancelCalls ++ l.map Prod.fst } := by
  induction l with
  | nil => intro st; simp
  | cons p t ih =>
    intro st
    have hstep : shutdownStep env st p.1 =
        { st with cancelCalls := st.cancelCalls ++ [p.1] } := by
      unfold shutdownStep
      exact ite_self _
    simp only [List.foldl_cons]
    rw [hstep, ih]
    simp

lemma cancelFinish_store (id : String) (sil : Bool) (r : String)
    (st1 : Coord) : (cancelFinish id sil r st1).store =
      removeAssoc st1.store id := by
  unfold cancelFinish
  cases storeGet st1.store id <;> simp [cleanup_task, storeRemove] <;>
    split <;> simp [cleanup_task, storeRemove]

lemma cancelFinish_scheduledTasks (id : String) (sil : Bool) (r : String)
    (st1 : Coord) : (cancelFinish id sil r st1).scheduledTasks =
      removeAssoc st1.scheduledTasks id := by
  unfold cancelFinish
  cases storeGet st1.store id <;> simp [cleanup_task] <;>
    split <;> simp [cleanup_task]

lemma cancelFinish_events (id : String) (sil : Bool) (r : String)
    (st1 : Coord) : (cancelFinish id sil r st1).events =
      st1.events ++ [Event.taskCancelled id r] := by
  unfold cancelFinish
  cases storeGet st1.store id <;> simp [cleanup_task] <;>
    split <;> simp [cleanup_task]

lemma cancelFinish_notifs_silent (id : String) (r : String) (st1 : Coord) :
    (cancelFinish id true r st1).notifs = st1.notifs := by
  unfold cancelFinish
  cases storeGet st1.store id <;> simp [cleanup_task]

lemma cancelFinish_calls (id : String) (sil : Bool) (r : String)
    (st1 : Coord) : (cancelFinish id sil r st1).calls = st1.calls := by
  unfold cancelFinish
  cases storeGet st1.store id <;> simp [cleanup_task] <;>
    split <;> simp [cleanup_task]

/-- With a non-raising cancel handle, `async_cancel_action` never raises:
its result is fully characterized by whether the id was armed or stored. -/
lemma async_cancel_action_eq (env : Env) (id : String) (sil : Bool)
    (r : String) (st : Coord) (h : env.cancelRaises id = false) :
    async_cancel_action env id sil r st =
      if hasTimer st id ∨ storeHas st.store id then
        (CancelOutcome.ret true, cancelFinish id sil r
          (if hasTimer st id then
            { st with cancelCalls := st.cancelCalls ++ [id] }
          else st))
      else (CancelOutcome.ret false, st) := by
  unfold async_cancel_action
  by_cases ht : hasTimer st id <;> by_cases hs : storeHas st.store id <;>
    simp [ht, hs, h]

lemma startActionsFold_eq (env : Env) (l : List ActionDef) :
    ∀ st : Coord, l.foldl
        (fun s act => (execute_action_definition env act s).2) st =
      { st with calls := st.calls ++ callsOf l } := by
  induction l with
  | nil => intro st; simp [callsOf]
  | cons a t ih =>
    intro st
    have hstep : (execute_action_definition env a st).2 =
        { st with calls := st.calls ++ callOf a } := by
      rw [execute_action_definition_eq]
    simp only [List.foldl_cons]
    rw [hstep, ih]
    simp [callsOf]

/-! ### Concrete fixtures used by counterexamples and witnesses -/

/-- An environment in which no host call fails, no cancel handle raises,
and no stored string parses. -/
def quietEnv : Env := ⟨fun _ _ => false, fun _ => false, fun _ => none⟩

/-- An environment in which exactly the calls to the `switch` domain fail. -/
def switchFailsEnv : Env := ⟨fun d _ => d = "switch", fun _ => false, fun _ => none⟩

/-- A well-formed finish action. -/
def offAction : ActionDef := ⟨some "light.turn_off", some "light.kitchen"⟩

/-- A finish action whose host call fails under `switchFailsEnv`. -/
def switchAction : ActionDef := ⟨some "switch.turn_off", some "switch.plug"⟩

/-- A plain stored task record keyed `"t"` in the fixtures. -/
def sampleRecord : TaskRecord :=
  { scheduled_time := some "t0", end_time := some "t1", delay_seconds := 600,
    start_actions := [], finish_actions := [offAction],
    notify := false, notify_ha := false, notify_mobile := false,
    notify_devices := [], at_time := none,
    time_mode := TIME_MODE_RELATIVE, task_label := none }

/-- The armed-callback data matching `sampleRecord`. -/
def sampleTimer : TimerData :=
  { fireAt := ⟨1, 3600, 0⟩, finish_actions := [offAction],
    notify := false, notify_ha := false, notify_mobile := false,
    notify_devices := [], task_label := none }

/-- The coordinator state right after startup: nothing stored, nothing
armed, no effects yet. -/
def emptyState : Coord := ⟨[], [], [], [], [], [], [], []⟩

/-- A state with the task `"t"` both stored and armed. -/
def armedState : Coord :=
  { store := [("t", sampleRecord)], scheduledTasks := [("t", sampleTimer)],
    stateListeners := [], prefsHistory := [], events := [], notifs := [],
    calls := [], cancelCalls := [] }

/-! ### Claims -/

/-- C9: `async_shutdown` attempts to cancel every live timer handle — the
resulting state is the same for every environment, so a raising handle
cannot block the remaining cancellations — clears the in-memory handle
table, and performs no read or write on the Durable Task Store: the store
(and every effect log) is exactly what it was before. -/
theorem c9_shutdown_frame (env : Env) (st : Coord) :
    (async_shutdown env st).store = st.store ∧
    (async_shutdown env st).scheduledTasks = [] ∧
    (async_shutdown env st).cancelCalls =
      st.cancelCalls ++ st.scheduledTasks.map Prod.fst ∧
    (async_shutdown env st).events = st.events ∧
    (async_shutdown env st).notifs = st.notifs ∧
    (async_shutdown env st).calls = st.calls := by
  unfold async_shutdown
  rw [shutdownFold_eq]
  simp

/-- C3: when the timer fires, every finish action is attempted in order
regardless of earlier failures (the host-call log grows by exactly the
batch's calls, in batch order), and `TaskCompleted` carries
`success_count` equal to the number of actions that did not raise and
`error_count` equal to the number that raised; concretely, a two-action
batch whose first action fails and whose second succeeds yields counts
`1`/`1` with both actions invoked. -/
theorem c3_finish_counts :
    (∀ (env : Env) (task_id : String) (td : TimerData) (st : Coord),
      (execute_finish_actions env task_id td st).events =
        st.events ++ [Event.taskCompleted task_id td.finish_actions
          (successCountOf env td.finish_actions)
          (errorCountOf env td.finish_actions)] ∧
      (execute_finish_actions env task_id td st).calls =
        st.calls ++ callsOf td.finish_actions) ∧
    (execute_finish_actions switchFailsEnv "t"
        { sampleTimer with finish_actions := [switchAction, offAction] }
        emptyState).events =
      [Event.taskCompleted "t" [switchAction, offAction] 1 1] ∧
    (execute_finish_actions switchFailsEnv "t"
        { sampleTimer with finish_actions := [switchAction, offAction] }
        emptyState).calls =
      [("switch", "turn_off"), ("light", "turn_off")] := by
  refine ⟨fun env id td st =>
    ⟨(execute_finish_actions_spec env id td st).1,
     (execute_finish_actions_spec env id td st).2.1⟩, ?_, ?_⟩ <;> decide

/-- C10: an action whose `service` field is missing, or whose service string
contains no dot, is skipped without raising — the finish loop counts it as
a success — and an error is counted only when a present, dotted service
string's underlying invocation raises. -/
theorem c10_skipped_action_is_success :
    (∀ (env : Env) (a : ActionDef) (st : Coord), a.service = none →
      execute_action_definition env a st = (false, st)) ∧
    (∀ (env : Env) (a : ActionDef) (st : Coord) (s : String),
      a.service = some s → hasDot s = false →
      execute_action_definition env a st = (false, st)) ∧
    (∀ (env : Env) (a : ActionDef) (st : Coord),
      (execute_action_definition env a st).1 = true →
      ∃ s, a.service = some s ∧ hasDot s = true ∧
        env.svcRaises (domainOf s) (serviceNameOf s) = true) ∧
    (∀ (env : Env) (sc ec : Nat) (st : Coord) (a : ActionDef),
      (a.service = none ∨ ∃ s, a.service = some s ∧ hasDot s = false) →
      finishStep env (sc, ec, st) a = (sc + 1, ec, st)) := by
  refine ⟨?_, ?_, ?_, ?_⟩
  · intro env a st h
    cases a
    simp_all [execute_action_definition]
  · intro env a st s h hd
    by_cases hs : s = "" <;>
      simp [execute_action_definition, h, hs, hd]
  · intro env a st h
    rw [execute_action_definition_eq] at h
    simp only at h
    cases hs : a.service with
    | none => simp [actionRaises, hs] at h
    | some s =>
      by_cases h0 : s = ""
      · simp [actionRaises, hs, h0] at h
      · by_cases hd : hasDot s
        · simp [actionRaises, hs, h0, hd] at h
          exact ⟨s, rfl, hd, h⟩
        · simp [actionRaises, hs, h0, hd] at h
  · intro env sc ec st a h
    have hr : actionRaises env a = false ∧ callOf a = [] := by
      rcases h with h | ⟨s, hs, hd⟩
      · simp [actionRaises, callOf, h]
      · by_cases h0 : s = "" <;>
          simp [actionRaises, callOf, hs, h0, hd]
    simp [finishStep, execute_action_definition_eq, hr.1, hr.2]

/-- C10 witness: a missing-service action and a dotless-service action are
both skipped, and the skipped action increments the success counter. -/
theorem c10_skipped_action_is_success_witness :
    execute_action_definition quietEnv ⟨none, none⟩ emptyState =
      (false, emptyState) ∧
    execute_action_definition quietEnv ⟨some "toggle", none⟩ emptyState =
      (false, emptyState) ∧
    finishStep quietEnv (0, 0, emptyState) ⟨some "toggle", none⟩ =
      (1, 0, emptyState) :=
  ⟨c10_skipped_action_is_success.1 quietEnv ⟨none, none⟩ emptyState rfl,
   c10_skipped_action_is_success.2.1 quietEnv ⟨some "toggle", none⟩
     emptyState "toggle" rfl (by decide),
   c10_skipped_action_is_success.2.2.2 quietEnv 0 0 emptyState
     ⟨some "toggle", none⟩ (Or.inr ⟨"toggle", rfl, by decide⟩)⟩

/-- C8: the delay of a RELATIVE-mode request converts to seconds as
seconds×1, minutes×60, hours×3600, and the schedule arms its timer at
exactly `now` plus that many seconds, persisting the same number as the
record's `delay_seconds`. -/
theorem c8_relative_fire_time :
    (∀ d : Int, convert_to_seconds d UNIT_SECONDS = d ∧
      convert_to_seconds d UNIT_MINUTES = d * 60 ∧
      convert_to_seconds d UNIT_HOURS = d * 3600) ∧
    (∀ (env : Env) (now : PyDT) (a : ScheduleArgs) (st : Coord),
      a.time_mode = TIME_MODE_RELATIVE →
      env.cancelRaises a.task_id = false →
      (async_schedule_action env now a st).1 = ScheduleOutcome.created ∧
      (timerGet (async_schedule_action env now a st).2 a.task_id).map
          TimerData.fireAt =
        some (now.addSeconds (convert_to_seconds a.delay a.unit)) ∧
      (storeGet (async_schedule_action env now a st).2.store a.task_id).map
          TaskRecord.delay_seconds =
        some (convert_to_seconds a.delay a.unit)) := by
  constructor
  · intro d
    refine ⟨?_, ?_, ?_⟩ <;>
      simp [convert_to_seconds, UNIT_SECONDS, UNIT_MINUTES, UNIT_HOURS]
  · intro env now a st hmode hc
    have hnotabs : ¬ (a.time_mode = TIME_MODE_ABSOLUTE ∧
        truthyStr a.at_time = true) := by
      simp [hmode, TIME_MODE_RELATIVE, TIME_MODE_ABSOLUTE]
    unfold async_schedule_action
    rw [async_cancel_action_eq env a.task_id true "user_request" st hc]
    by_cases hb : hasTimer st a.task_id = true ∨ storeHas st.store a.task_id = true <;>
      · simp only [hb, if_true, if_false, ite_true, ite_false, hnotabs,
          startActionsFold_eq]
        cases hfa : a.finish_actions <;>
          simp [hfa, timerGet, storeGet, storePut, getAssoc_putAssoc_self]

/-- C8 witness: scheduling `10` seconds relative from a concrete `now` in
the empty state arms the timer at `now + 10s` and stores `delay_seconds =
10`; `5` minutes converts to `300` seconds. -/
theorem c8_relative_fire_time_witness :
    convert_to_seconds 5 UNIT_MINUTES = 5 * 60 ∧
    (async_schedule_action quietEnv ⟨0, 0, 0⟩
      ⟨"t1", 10, UNIT_SECONDS, [offAction], [], false, false, false, [],
        none, TIME_MODE_RELATIVE, none⟩ emptyState).1 =
      ScheduleOutcome.created ∧
    (timerGet (async_schedule_action quietEnv ⟨0, 0, 0⟩
        ⟨"t1", 10, UNIT_SECONDS, [offAction], [], false, false, false, [],
          none, TIME_MODE_RELATIVE, none⟩ emptyState).2 "t1").map
        TimerData.fireAt =
      some (PyDT.addSeconds ⟨0, 0, 0⟩ (convert_to_seconds 10 UNIT_SECONDS)) :=
  ⟨(c8_relative_fire_time.1 5).2.1,
   (c8_relative_fire_time.2 quietEnv ⟨0, 0, 0⟩
     ⟨"t1", 10, UNIT_SECONDS, [offAction], [], false, false, false, [],
       none, TIME_MODE_RELATIVE, none⟩ emptyState rfl rfl).1,
   (c8_relative_fire_time.2 quietEnv ⟨0, 0, 0⟩
     ⟨"t1", 10, UNIT_SECONDS, [offAction], [], false, false, false, [],
       none, TIME_MODE_RELATIVE, none⟩ emptyState rfl rfl).2.1⟩

/-- C5: when an ABSOLUTE-mode time string parses, the computed fire time is
strictly after `now`: it is today's occurrence of that time-of-day when
that is still ahead, and the same time tomorrow when today's occurrence
has passed or equals `now` (the source compares with `<=`). -/
theorem c5_absolute_strictly_future :
    ∀ (now : PyDT) (at_time : String) (sched : PyDT) (d : Int),
      now.sod < 86400 → now.usec < 1000000 →
      computeAbsolute now at_time = AbsResult.ok sched d →
      now.toAbsUsec < sched.toAbsUsec ∧
      ∃ h m s t0, parseAtTime at_time = AtTimeParse.ok h m s ∧
        pyReplace now h m s = some t0 ∧ t0.day = now.day ∧
        (t0.le now = true → sched = t0.addDays 1) ∧
        (t0.le now = false → sched = t0) := by
  intro now at_time sched d hsod husec hc
  unfold computeAbsolute at hc
  cases hp : parseAtTime at_time <;> rw [hp] at hc
  case caught => exact absurd hc (by simp)
  case uncaught => exact absurd hc (by simp)
  case ok h m s =>
    simp only [] at hc
    cases hr : pyReplace now h m s <;> rw [hr] at hc
    case none => exact absurd hc (by simp)
    case some t0 =>
      simp only [AbsResult.ok.injEq] at hc
      have ht0 : t0.day = now.day ∧ t0.usec = 0 := by
        unfold pyReplace at hr
        split at hr
        · cases hr; exact ⟨rfl, rfl⟩
        · cases hr
      refine ⟨?_, h, m, s, t0, rfl, hr, ht0.1, ?_, ?_⟩
      · cases hle : t0.le now <;> rw [hle] at hc <;>
          simp only [if_true, if_false, Bool.false_eq_true, ite_true,
            ite_false] at hc
        · have : ¬ t0.toAbsUsec ≤ now.toAbsUsec := by
            simpa [PyDT.le] using hle
          rw [← hc.1]
          omega
        · rw [← hc.1]
          have hx : t0.toAbsUsec ≤ now.toAbsUsec := by
            simpa [PyDT.le] using hle
          obtain ⟨hd, hu⟩ := ht0
          simp only [PyDT.toAbsUsec, PyDT.addDays, hd, hu] at *
          omega
      · intro hle
        rw [hle] at hc
        simp at hc
        exact hc.1.symm
      · intro hle
        rw [hle] at hc
        simp at hc
        exact hc.1.symm

/-- C5 witness: at `23:59:50` on day 0, requesting `"00:00"` schedules for
day 1 at `00:00:00`, strictly after `now`. -/
theorem c5_absolute_strictly_future_witness :
    PyDT.toAbsUsec ⟨0, 86390, 0⟩ < PyDT.toAbsUsec ⟨1, 0, 0⟩ ∧
    ∃ h m s t0, parseAtTime "00:00" = AtTimeParse.ok h m s ∧
      pyReplace ⟨0, 86390, 0⟩ h m s = some t0 ∧ t0.day = (0 : Int) ∧
      (t0.le ⟨0, 86390, 0⟩ = true → (⟨1, 0, 0⟩ : PyDT) = t0.addDays 1) ∧
      (t0.le ⟨0, 86390, 0⟩ = false → (⟨1, 0, 0⟩ : PyDT) = t0) :=
  c5_absolute_strictly_future ⟨0, 86390, 0⟩ "00:00" ⟨1, 0, 0⟩ 10
    (by decide) (by decide) (by decide)

/-- C6: cancelling an id that is neither armed nor stored returns `False`
and changes nothing; consequently, cancelling an armed-or-stored id twice
in a row returns `False` the second time, changes nothing the second time,
and emits exactly one `TaskCancelled` event for that id in total. -/
theorem c6_cancel_false_when_absent_and_idempotent :
    (∀ (env : Env) (id r : String) (st : Coord),
      hasTimer st id = false → storeHas st.store id = false →
      async_cancel_action env id false r st = (CancelOutcome.ret false, st)) ∧
    (∀ (env : Env) (id r : String) (st : Coord),
      (hasTimer st id = true ∨ storeHas st.store id = true) →
      env.cancelRaises id = false →
      (async_cancel_action env id false r st).1 = CancelOutcome.ret true ∧
      async_cancel_action env id false r
          (async_cancel_action env id false r st).2 =
        (CancelOutcome.ret false, (async_cancel_action env id false r st).2) ∧
      cancelledCount id (async_cancel_action env id false r st).2.events =
        cancelledCount id st.events + 1) := by
  constructor
  · intro env id r st h1 h2
    unfold async_cancel_action
    simp [h1, h2]
  · intro env id r st hb hc
    have heq := async_cancel_action_eq env id false r st hc
    rw [heq, if_pos hb]
    simp only
    set st1 := if hasTimer st id = true then
      { st with cancelCalls := st.cancelCalls ++ [id] } else st with hst1
    have hst1ev : st1.events = st.events := by
      rw [hst1]; cases hts : hasTimer st id <;> simp
    refine ⟨trivial, ?_, ?_⟩
    · have hnt : hasTimer (cancelFinish id false r st1) id = false := by
        unfold hasTimer
        rw [cancelFinish_scheduledTasks]
        exact hasAssoc_removeAssoc _ _
      have hns : storeHas (cancelFinish id false r st1).store id = false := by
        unfold storeHas
        rw [cancelFinish_store]
        exact hasAssoc_removeAssoc _ _
      rw [async_cancel_action_eq env id false r _ hc]
      simp [hnt, hns]
    · rw [cancelFinish_events, hst1ev]
      simp [cancelledCount, List.filter_append, isCancelledFor]

/-- C6 witness: cancelling the armed task `"t"` succeeds and emits one
`TaskCancelled` event; cancelling it again returns `False` without change,
and cancelling a never-scheduled id in the empty state is a no-op. -/
theorem c6_cancel_false_when_absent_and_idempotent_witness :
    async_cancel_action quietEnv "missing" false "user_request" emptyState =
      (CancelOutcome.ret false, emptyState) ∧
    (async_cancel_action quietEnv "t" false "user_request" armedState).1 =
      CancelOutcome.ret true ∧
    async_cancel_action quietEnv "t" false "user_request"
        (async_cancel_action quietEnv "t" false "user_request" armedState).2 =
      (CancelOutcome.ret false,
        (async_cancel_action quietEnv "t" false "user_request" armedState).2) ∧
    cancelledCount "t"
        (async_cancel_action quietEnv "t" false "user_request" armedState).2.events =
      cancelledCount "t" armedState.events + 1 :=
  ⟨c6_cancel_false_when_absent_and_idempotent.1 quietEnv "missing"
      "user_request" emptyState (by decide) (by decide),
   c6_cancel_false_when_absent_and_idempotent.2 quietEnv "t" "user_request"
      armedState (Or.inl (by decide)) rfl⟩

/-- C1 counterexample: a silent cancel (`silent=True`, as in `schedule`'s
replace step) of the armed task `"t"` does cancel it, yet a `TaskCancelled`
lifecycle event is emitted — the claim that a silent cancel emits no
lifecycle event is false on the code (the event firing on lines 552-559 is
not gated on `silent`). -/
theorem c1_silent_cancel_emits_event_counterexample :
    (async_cancel_action quietEnv "t" true "user_request" armedState).1 =
      CancelOutcome.ret true ∧
    (async_cancel_action quietEnv "t" true "user_request" armedState).2.events =
      [Event.taskCancelled "t" "user_request"] := by
  decide

/-- C1 (amended): a silent cancel never attempts a notification delivery,
but when it cancels a task it still emits the `TaskCancelled` event. -/
theorem c1_silent_cancel_no_notification :
    ∀ (env : Env) (id r : String) (st : Coord),
      (async_cancel_action env id true r st).2.notifs = st.notifs ∧
      (∀ st', async_cancel_action env id true r st =
          (CancelOutcome.ret true, st') →
        st'.events = st.events ++ [Event.taskCancelled id r]) := by
  intro env id r st
  unfold async_cancel_action
  by_cases hg : ¬ hasTimer st id = true ∧ ¬ storeHas st.store id = true
  · simp [hg]
  · rw [if_neg hg]
    by_cases ht : hasTimer st id = true <;>
      cases hbad : env.cancelRaises id <;>
        simp only [ht, hbad, if_true, if_false, ite_true, ite_false,
          Bool.false_eq_true]
    all_goals constructor
    all_goals first
      | trivial
      | rw [cancelFinish_notifs_silent]
      | rfl
      | (intro st' hsteq
         injection hsteq with h1 h2
         first
           | exact CancelOutcome.noConfusion h1
           | (subst h2; rw [cancelFinish_events]))

/-- C1 witness: the silent cancel of armed task `"t"` leaves the
notification log untouched while appending the `TaskCancelled` event. -/
theorem c1_silent_cancel_no_notification_witness :
    (async_cancel_action quietEnv "t" true "user_request" armedState).2.notifs =
      armedState.notifs ∧
    (async_cancel_action quietEnv "t" true "user_request" armedState).2.events =
      armedState.events ++ [Event.taskCancelled "t" "user_request"] :=
  ⟨(c1_silent_cancel_no_notification quietEnv "t" "user_request" armedState).1,
   (c1_silent_cancel_no_notification quietEnv "t" "user_request" armedState).2
     _ (by decide)⟩

/-- ABSOLUTE-mode schedule arguments whose time string `"bad"` does not
parse, targeting the already-armed task id `"t"`. -/
def badAbsArgs : ScheduleArgs :=
  { task_id := "t", delay := 15, unit := UNIT_MINUTES,
    finish_actions := [offAction], start_actions := [],
    notify := false, notify_ha := false, notify_mobile := false,
    notify_devices := [], at_time := some "bad",
    time_mode := TIME_MODE_ABSOLUTE, task_label := none }

/-- C2 counterexample: scheduling task `"t"` in ABSOLUTE mode with the
unparsable time string `"bad"` while a task `"t"` is armed and stored is
rejected with no task created — but the previously armed task is *not*
unchanged: the replace step has already removed it from the store and the
timer table (and emitted a `TaskCancelled` event) before the parse failed. -/
theorem c2_invalid_time_counterexample :
    storeHas armedState.store "t" = true ∧
    hasTimer armedState "t" = true ∧
    (async_schedule_action quietEnv ⟨0, 43200, 0⟩ badAbsArgs armedState).1 =
      ScheduleOutcome.rejected ∧
    storeHas (async_schedule_action quietEnv ⟨0, 43200, 0⟩ badAbsArgs
      armedState).2.store "t" = false ∧
    hasTimer (async_schedule_action quietEnv ⟨0, 43200, 0⟩ badAbsArgs
      armedState).2 "t" = false ∧
    (async_schedule_action quietEnv ⟨0, 43200, 0⟩ badAbsArgs
      armedState).2.events = [Event.taskCancelled "t" "user_request"] := by
  decide

/-- With a non-raising cancel handle, `async_cancel_action` leaves neither a
store entry nor a timer handle for the cancelled id. -/
lemma async_cancel_action_clears (env : Env) (id : String) (sil : Bool)
    (r : String) (st : Coord) (h : env.cancelRaises id = false) :
    storeHas (async_cancel_action env id sil r st).2.store id = false ∧
    hasTimer (async_cancel_action env id sil r st).2 id = false := by
  rw [async_cancel_action_eq env id sil r st h]
  by_cases hb : hasTimer st id = true ∨ storeHas st.store id = true
  · rw [if_pos hb]
    constructor
    · unfold storeHas
      rw [cancelFinish_store]
      exact hasAssoc_removeAssoc _ _
    · unfold hasTimer
      rw [cancelFinish_scheduledTasks]
      exact hasAssoc_removeAssoc _ _
  · rw [if_neg hb]
    push_neg at hb
    exact ⟨by simpa using hb.2, by simpa using hb.1⟩

/-- An ABSOLUTE-mode schedule whose time computation fails stops right after
the silent replace-cancel: the caught family returns `rejected`, the
uncaught family (`IndexError` from `parts[1]`) escapes as `raisedOut`, and
in both cases the resulting state is exactly the post-cancel state. -/
lemma async_schedule_action_absFail (env : Env) (now : PyDT)
    (a : ScheduleArgs) (st : Coord)
    (habs : a.time_mode = TIME_MODE_ABSOLUTE ∧ truthyStr a.at_time = true)
    (hc : env.cancelRaises a.task_id = false) :
    (computeAbsolute now (a.at_time.getD "") = AbsResult.caught →
      async_schedule_action env now a st = (ScheduleOutcome.rejected,
        (async_cancel_action env a.task_id true "user_request" st).2)) ∧
    (computeAbsolute now (a.at_time.getD "") = AbsResult.uncaught →
      async_schedule_action env now a st = (ScheduleOutcome.raisedOut,
        (async_cancel_action env a.task_id true "user_request" st).2)) := by
  constructor <;>
    · intro hx
      unfold async_schedule_action
      rw [async_cancel_action_eq env a.task_id true "user_request" st hc]
      by_cases hb : hasTimer st a.task_id = true ∨
          storeHas st.store a.task_id = true
      · rw [if_pos hb]
        simp only [habs, and_self, if_true, ite_true, hx]
      · rw [if_neg hb]
        simp only [habs, and_self, if_true, ite_true, hx]

/-- C2 (amended): an ABSOLUTE-mode request whose time string fails to parse
as `HH:MM`/`HH:MM:SS` with valid ranges creates no task — afterwards the
store and timer table hold no entry for the task id, and the final state is
exactly the state left by the implicit silent replace-cancel, which has
already removed any previously existing task with that id before the time
string was parsed.  How the error surfaces depends on the string: for most
malformed strings (`ValueError` from `int()`, out-of-range `replace`) it is
caught, logged and swallowed (the coroutine returns `None`); but a
colon-less string whose sole field parses as an int (such as `"12"`) raises
an `IndexError` that the `except (ValueError, AttributeError)` clause does
not catch, so it propagates to the caller. -/
theorem c2_invalid_time_rejected :
    ∀ (env : Env) (now : PyDT) (a : ScheduleArgs) (st : Coord),
      a.time_mode = TIME_MODE_ABSOLUTE →
      truthyStr a.at_time = true →
      (computeAbsolute now (a.at_time.getD "") = AbsResult.caught ∨
        computeAbsolute now (a.at_time.getD "") = AbsResult.uncaught) →
      env.cancelRaises a.task_id = false →
      (computeAbsolute now (a.at_time.getD "") = AbsResult.caught →
        (async_schedule_action env now a st).1 = ScheduleOutcome.rejected) ∧
      (computeAbsolute now (a.at_time.getD "") = AbsResult.uncaught →
        (async_schedule_action env now a st).1 = ScheduleOutcome.raisedOut) ∧
      (async_schedule_action env now a st).2 =
        (async_cancel_action env a.task_id true "user_request" st).2 ∧
      storeHas (async_schedule_action env now a st).2.store a.task_id = false ∧
      hasTimer (async_schedule_action env now a st).2 a.task_id = false := by
  intro env now a st hmode htr hfail hc
  have hlem := async_schedule_action_absFail env now a st ⟨hmode, htr⟩ hc
  have hsnd : (async_schedule_action env now a st).2 =
      (async_cancel_action env a.task_id true "user_request" st).2 := by
    rcases hfail with hx | hx
    · rw [hlem.1 hx]
    · rw [hlem.2 hx]
  have hclear := async_cancel_action_clears env a.task_id true "user_request"
    st hc
  refine ⟨fun hx => by rw [hlem.1 hx], fun hx => by rw [hlem.2 hx], hsnd,
    ?_, ?_⟩
  · rw [hsnd]
    exact hclear.1
  · rw [hsnd]
    exact hclear.2

/-- ABSOLUTE-mode schedule arguments with the colon-less numeric time string
`"12"`: `int(parts[0])` succeeds and `parts[1]` raises an uncaught
`IndexError`. -/
def abs12Args : ScheduleArgs := { badAbsArgs with at_time := some "12" }

/-- C2 witness: the amended claim at the concrete counterexample state for
both failure families — `"bad"` is caught and rejected, `"12"` escapes as
an uncaught exception; in each case the id is gone from store and timers
and the state is the post-silent-cancel state. -/
theorem c2_invalid_time_rejected_witness :
    (async_schedule_action quietEnv ⟨0, 43200, 0⟩ badAbsArgs armedState).1 =
      ScheduleOutcome.rejected ∧
    (async_schedule_action quietEnv ⟨0, 43200, 0⟩ abs12Args armedState).1 =
      ScheduleOutcome.raisedOut ∧
    (async_schedule_action quietEnv ⟨0, 43200, 0⟩ badAbsArgs armedState).2 =
      (async_cancel_action quietEnv "t" true "user_request" armedState).2 ∧
    storeHas (async_schedule_action quietEnv ⟨0, 43200, 0⟩ badAbsArgs
      armedState).2.store "t" = false ∧
    hasTimer (async_schedule_action quietEnv ⟨0, 43200, 0⟩ abs12Args
      armedState).2 "t" = false :=
  ⟨(c2_invalid_time_rejected quietEnv ⟨0, 43200, 0⟩ badAbsArgs armedState
      rfl rfl (Or.inl (by decide)) rfl).1 (by decide),
   (c2_invalid_time_rejected quietEnv ⟨0, 43200, 0⟩ abs12Args armedState
      rfl rfl (Or.inr (by decide)) rfl).2.1 (by decide),
   (c2_invalid_time_rejected quietEnv ⟨0, 43200, 0⟩ badAbsArgs armedState
      rfl rfl (Or.inl (by decide)) rfl).2.2.1,
   (c2_invalid_time_rejected quietEnv ⟨0, 43200, 0⟩ badAbsArgs armedState
      rfl rfl (Or.inl (by decide)) rfl).2.2.2.1,
   (c2_invalid_time_rejected quietEnv ⟨0, 43200, 0⟩ abs12Args armedState
      rfl rfl (Or.inr (by decide)) rfl).2.2.2.2⟩

lemma mem_removeAssoc_ne {α : Type} {p : String × α} {l : List (String × α)}
    {k : String} (h : p ∈ removeAssoc l k) : p.1 ≠ k := by
  simpa using (List.mem_filter.mp h).2

lemma restoreStep_store_sub (env : Env) (now : PyDT) {q : String × TaskRecord}
    {st : Coord} {p : String × TaskRecord}
    (h : q ∈ (restoreStep env now st p).store) : q ∈ st.store := by
  obtain ⟨id, r⟩ := p
  unfold restoreStep at h
  simp only at h
  cases hf : recordFireTime env r <;> rw [hf] at h
  · exact mem_removeAssoc h
  case some sched =>
    by_cases he : r.finish_actions = [] <;>
      simp only [he, if_true, if_false, ite_true, ite_false] at h
    · exact mem_removeAssoc h
    · cases hle : sched.le now <;> rw [hle] at h <;>
        simp only [Bool.false_eq_true, if_true, if_false, ite_true,
          ite_false] at h
      · exact h
      · rw [(execute_finish_actions_spec env id (timerDataOf r sched) st).2.2.1]
          at h
        exact mem_removeAssoc h

lemma restoreFold_store_sub (env : Env) (now : PyDT) :
    ∀ (l : List (String × TaskRecord)) (st : Coord) (q : String × TaskRecord),
      q ∈ (l.foldl (restoreStep env now) st).store → q ∈ st.store := by
  intro l
  induction l with
  | nil => intro st q h; exact h
  | cons p t ih =>
    intro st q h
    rw [List.foldl_cons] at h
    exact restoreStep_store_sub env now (ih _ q h)

lemma restoreFold_valid (env : Env) (now : PyDT) :
    ∀ (l : List (String × TaskRecord)) (st : Coord) (q : String × TaskRecord),
      q ∈ (l.foldl (restoreStep env now) st).store → q ∈ l →
      recordFireTime env q.2 ≠ none ∧ q.2.finish_actions ≠ [] := by
  intro l
  induction l with
  | nil => intro st q h hq; exact absurd hq (List.not_mem_nil q)
  | cons p t ih =>
    intro st q h hq
    rw [List.foldl_cons] at h
    rcases List.mem_cons.mp hq with hq | hq
    · subst hq
      have h1 : q ∈ (restoreStep env now st q).store :=
        restoreFold_store_sub env now t _ q h
      obtain ⟨id, r⟩ := q
      unfold restoreStep at h1
      simp only at h1
      cases hf : recordFireTime env r
      · rw [hf] at h1
        exact absurd rfl (mem_removeAssoc_ne h1)
      case some sched =>
        rw [hf] at h1
        simp only [] at h1
        refine ⟨by simp, ?_⟩
        by_cases he : r.finish_actions = []
        · rw [if_pos he] at h1
          exact absurd rfl (mem_removeAssoc_ne h1)
        · exact he
    · exact ih _ q h hq

/-- C7: during recovery, a loaded record whose fire-time string is
unparsable or whose `finish_actions` list is empty is dropped by removing it
from the store and changing *nothing else* — no action executed, no event,
no notification — and consequently every record still persisted after
`async_restore_tasks` has a parsable fire time and a non-empty
`finish_actions` list. -/
theorem c7_recovery_drops_invalid :
    (∀ (env : Env) (now : PyDT) (st : Coord) (id : String) (r : TaskRecord),
      recordFireTime env r = none ∨ r.finish_actions = [] →
      restoreStep env now st (id, r) =
        { st with store := storeRemove st.store id }) ∧
    (∀ (env : Env) (now : PyDT) (st : Coord) (p : String × TaskRecord),
      p ∈ (async_restore_tasks env now st).store →
      recordFireTime env p.2 ≠ none ∧ p.2.finish_actions ≠ []) := by
  constructor
  · intro env now st id r h
    rcases h with h | h
    · simp [restoreStep, h]
    · cases hf : recordFireTime env r <;> simp [restoreStep, hf, h]
  · intro env now st p hp
    exact restoreFold_valid env now st.store st p hp
      (restoreFold_store_sub env now st.store st p hp)

/-- An environment whose `parse_datetime` knows the strings `"future"`
(day 2) and `"past"` (day 0) and nothing else. -/
def parseEnv : Env :=
  ⟨fun _ _ => false, fun _ => false,
   fun s => if s = "future" then some ⟨2, 0, 0⟩
     else if s = "past" then some ⟨0, 0, 0⟩ else none⟩

/-- A stored record whose fire time parses to day 2 under `parseEnv`. -/
def futureRecord : TaskRecord := { sampleRecord with end_time := some "future" }

/-- A stored record whose fire time parses to day 0 under `parseEnv`. -/
def pastRecord : TaskRecord := { sampleRecord with end_time := some "past" }

/-- A stored record with no time fields at all: its fire time is
unparsable. -/
def badRecord : TaskRecord :=
  { sampleRecord with scheduled_time := none, end_time := none }

/-- A store holding only the valid future task `"f"`. -/
def futureState : Coord := { emptyState with store := [("f", futureRecord)] }

/-- A store holding only the overdue task `"p"`. -/
def pastState : Coord := { emptyState with store := [("p", pastRecord)] }

/-- C7 witness: a record with no parsable time is dropped store-only, and
the future record surviving a concrete recovery is valid. -/
theorem c7_recovery_drops_invalid_witness :
    restoreStep parseEnv ⟨1, 0, 0⟩ emptyState ("b", badRecord) =
      { emptyState with store := storeRemove emptyState.store "b" } ∧
    recordFireTime parseEnv futureRecord ≠ none ∧
    futureRecord.finish_actions ≠ [] :=
  ⟨c7_recovery_drops_invalid.1 parseEnv ⟨1, 0, 0⟩ emptyState "b" badRecord
      (Or.inl (by decide)),
   c7_recovery_drops_invalid.2 parseEnv ⟨1, 0, 0⟩ futureState
      ("f", futureRecord) (by decide)⟩

lemma hasAssoc_eq_false_iff {α : Type} (l : List (String × α)) (k : String) :
    hasAssoc l k = false ↔ ∀ q ∈ l, q.1 ≠ k := by
  simp [hasAssoc, List.any_eq_false]

lemma restoreStep_store_absent (env : Env) (now : PyDT) {st : Coord}
    {id : String} (h : storeHas st.store id = false)
    (p : String × TaskRecord) :
    storeHas (restoreStep env now st p).store id = false := by
  unfold storeHas at *
  rw [hasAssoc_eq_false_iff] at *
  intro q hq
  exact h q (restoreStep_store_sub env now hq)

lemma restoreStep_timer_absent (env : Env) (now : PyDT) {st : Coord}
    {id : String} {p : String × TaskRecord} (h : hasTimer st id = false)
    (hp : p.1 ≠ id) :
    hasTimer (restoreStep env now st p) id = false := by
  obtain ⟨k, rec⟩ := p
  unfold hasTimer at *
  rw [hasAssoc_eq_false_iff] at *
  intro q hq
  unfold restoreStep at hq
  simp only at hq
  cases hf : recordFireTime env rec <;> rw [hf] at hq
  · exact h q hq
  case some sched =>
    simp only [] at hq
    by_cases he : rec.finish_actions = [] <;>
      simp only [he, if_true, if_false, ite_true, ite_false] at hq
    · exact h q hq
    · cases hle : sched.le now <;> rw [hle] at hq <;>
        simp only [Bool.false_eq_true, if_true, if_false, ite_true,
          ite_false] at hq
      · unfold putAssoc at hq
        rcases List.mem_append.mp hq with hq | hq
        · exact h q (List.mem_filter.mp hq).1
        · intro hqq
          rw [List.mem_singleton] at hq
          rw [hq] at hqq
          exact hp hqq
      · rw [(execute_finish_actions_spec env k (timerDataOf rec sched)
            st).2.2.2] at hq
        exact h q (mem_removeAssoc hq)

lemma restoreStep_completed_other (env : Env) (now : PyDT) {st : Coord}
    {id : String} {p : String × TaskRecord} (hp : p.1 ≠ id) :
    completedCount id (restoreStep env now st p).events =
      completedCount id st.events := by
  obtain ⟨k, rec⟩ := p
  have hk : k ≠ id := hp
  unfold restoreStep
  simp only
  split
  · rfl
  next sched heq =>
    split
    · rfl
    · split
      · rw [(execute_finish_actions_spec env k (timerDataOf rec sched) st).1]
        simp [completedCount, List.filter_append, isCompletedFor, hk]
      · rfl

lemma restoreFold_store_absent (env : Env) (now : PyDT) (id : String)
    (l : List (String × TaskRecord)) (st : Coord)
    (h : storeHas st.store id = false) :
    storeHas (l.foldl (restoreStep env now) st).store id = false := by
  unfold storeHas at *
  rw [hasAssoc_eq_false_iff] at *
  intro q hq
  exact h q (restoreFold_store_sub env now l st q hq)

lemma restoreFold_timer_absent (env : Env) (now : PyDT) (id : String) :
    ∀ (l : List (String × TaskRecord)) (st : Coord),
      hasTimer st id = false → (∀ p ∈ l, (p : String × TaskRecord).1 ≠ id) →
      hasTimer (l.foldl (restoreStep env now) st) id = false := by
  intro l
  induction l with
  | nil => intro st h _; exact h
  | cons p t ih =>
    intro st h hk
    rw [List.foldl_cons]
    exact ih _ (restoreStep_timer_absent env now h (hk p (List.mem_cons_self p t)))
      (fun q hq => hk q (List.mem_cons_of_mem p hq))

lemma restoreFold_completed_other (env : Env) (now : PyDT) (id : String) :
    ∀ (l : List (String × TaskRecord)) (st : Coord),
      (∀ p ∈ l, (p : String × TaskRecord).1 ≠ id) →
      completedCount id (l.foldl (restoreStep env now) st).events =
        completedCount id st.events := by
  intro l
  induction l with
  | nil => intro st _; rfl
  | cons p t ih =>
    intro st hk
    rw [List.foldl_cons,
      ih _ (fun q hq => hk q (List.mem_cons_of_mem p hq)),
      restoreStep_completed_other env now (hk p (List.mem_cons_self p t))]

/-- C4: for every store containing a task record whose recovered fire time
is overdue (`fire_at <= now`), recovery runs that record through the very
same finish routine as a normal timer elapse — its restore step literally
equals `execute_finish_actions` — emitting exactly one additional
`TaskCompleted` event for the id and leaving neither a store record nor a
timer handle for it. -/
theorem c4_recover_overdue_executes_once :
    ∀ (env : Env) (now : PyDT) (st : Coord) (id : String) (r : TaskRecord)
      (ft : PyDT),
      (id, r) ∈ st.store →
      (st.store.map Prod.fst).Nodup →
      recordFireTime env r = some ft →
      ft.le now = true →
      r.finish_actions ≠ [] →
      (∀ st' : Coord, restoreStep env now st' (id, r) =
        execute_finish_actions env id (timerDataOf r ft) st') ∧
      storeHas (async_restore_tasks env now st).store id = false ∧
      hasTimer (async_restore_tasks env now st) id = false ∧
      completedCount id (async_restore_tasks env now st).events =
        completedCount id st.events + 1 := by
  intro env now st id r ft hmem hnd hf hle hne
  have hstep : ∀ st' : Coord, restoreStep env now st' (id, r) =
      execute_finish_actions env id (timerDataOf r ft) st' := by
    intro st'
    simp [restoreStep, hf, hne, hle]
  refine ⟨hstep, ?_⟩
  suffices h : ∀ (l : List (String × TaskRecord)) (st0 : Coord),
      (id, r) ∈ l → (l.map Prod.fst).Nodup →
      storeHas (l.foldl (restoreStep env now) st0).store id = false ∧
      hasTimer (l.foldl (restoreStep env now) st0) id = false ∧
      completedCount id (l.foldl (restoreStep env now) st0).events =
        completedCount id st0.events + 1 by
    simpa [async_restore_tasks] using h st.store st hmem hnd
  intro l
  induction l with
  | nil => intro st0 hm _; exact absurd hm (List.not_mem_nil _)
  | cons p t ih =>
    intro st0 hm hnd0
    rw [List.foldl_cons]
    rw [List.map_cons, List.nodup_cons] at hnd0
    rcases List.mem_cons.mp hm with hm | hm
    · have hid : id ∉ t.map Prod.fst := by
        have hx := hnd0.1
        rw [← hm] at hx
        exact hx
      have hkeys : ∀ q ∈ t, (q : String × TaskRecord).1 ≠ id := by
        intro q hq hqq
        apply hid
        rw [← hqq]
        exact List.mem_map_of_mem Prod.fst hq
      rw [← hm, hstep st0]
      have hs : storeHas (execute_finish_actions env id (timerDataOf r ft)
          st0).store id = false := by
        unfold storeHas
        rw [(execute_finish_actions_spec env id (timerDataOf r ft) st0).2.2.1]
        exact hasAssoc_removeAssoc _ _
      have htm : hasTimer (execute_finish_actions env id (timerDataOf r ft)
          st0) id = false := by
        unfold hasTimer
        rw [(execute_finish_actions_spec env id (timerDataOf r ft) st0).2.2.2]
        exact hasAssoc_removeAssoc _ _
      have hev : completedCount id (execute_finish_actions env id
          (timerDataOf r ft) st0).events = completedCount id st0.events + 1 := by
        rw [(execute_finish_actions_spec env id (timerDataOf r ft) st0).1]
        simp [completedCount, List.filter_append, isCompletedFor]
      exact ⟨restoreFold_store_absent env now id t _ hs,
        restoreFold_timer_absent env now id t _ htm hkeys,
        by rw [restoreFold_completed_other env now id t _ hkeys, hev]⟩
    · have hpk : p.1 ≠ id := by
        intro hpq
        apply hnd0.1
        rw [hpq]
        exact List.mem_map_of_mem Prod.fst hm
      have hrest := ih (restoreStep env now st0 p) hm hnd0.2
      refine ⟨hrest.1, hrest.2.1, ?_⟩
      rw [hrest.2.2, restoreStep_completed_other env now hpk]

/-- A store holding the overdue task `"p"` alongside the future task
`"f"`. -/
def mixedState : Coord :=
  { emptyState with store := [("p", pastRecord), ("f", futureRecord)] }

/-- C4 witness: in a two-record store, recovering at day 1 runs the overdue
task `"p"` through the finish routine (its step equals
`execute_finish_actions`), leaves no trace of `"p"`, and adds exactly one
`TaskCompleted` event for it. -/
theorem c4_recover_overdue_executes_once_witness :
    restoreStep parseEnv ⟨1, 0, 0⟩ mixedState ("p", pastRecord) =
      execute_finish_actions parseEnv "p" (timerDataOf pastRecord ⟨0, 0, 0⟩)
        mixedState ∧
    storeHas (async_restore_tasks parseEnv ⟨1, 0, 0⟩ mixedState).store "p" =
      false ∧
    hasTimer (async_restore_tasks parseEnv ⟨1, 0, 0⟩ mixedState) "p" =
      false ∧
    completedCount "p" (async_restore_tasks parseEnv ⟨1, 0, 0⟩
      mixedState).events = completedCount "p" mixedState.events + 1 :=
  ⟨(c4_recover_overdue_executes_once parseEnv ⟨1, 0, 0⟩ mixedState "p"
      pastRecord ⟨0, 0, 0⟩ (by decide) (by decide) (by decide) (by decide)
      (by decide)).1 mixedState,
   (c4_recover_overdue_executes_once parseEnv ⟨1, 0, 0⟩ mixedState "p"
      pastRecord ⟨0, 0, 0⟩ (by decide) (by decide) (by decide) (by decide)
      (by decide)).2.1,
   (c4_recover_overdue_executes_once parseEnv ⟨1, 0, 0⟩ mixedState "p"
      pastRecord ⟨0, 0, 0⟩ (by decide) (by decide) (by decide) (by decide)
      (by decide)).2.2.1,
   (c4_recover_overdue_executes_once parseEnv ⟨1, 0, 0⟩ mixedState "p"
      pastRecord ⟨0, 0, 0⟩ (by decide) (by decide) (by decide) (by decide)
      (by decide)).2.2.2⟩

end QuickTimer
